import Mathlib

/-!
Verification of the termdash axis-scaling and label-placement engine.

The Go sources `numbers/numbers.go` and `widgets/linechart/axes/scale.go` are
embedded shallowly: `float64` values are modelled as exact rationals (`ℚ`),
Go `int` as `ℤ`.  Fallible operations return `Except String`.  The files
`value.go` and `label.go` of the `axes` package are not part of the sources;
their definitions are modelled from the specification (see the doc comments
starting with `Modelled from the spec:`).  A separate small model of IEEE
special values (`GoFloat`) is used where NaN, infinities and the sign of zero
matter; on finite arguments every float64 operation performed by
`numbers.Round` is exact, so its rational model agrees with IEEE semantics.
-/

section S2P

attribute [local semireducible] Rat.mul Rat.inv Rat.add Rat.sub Rat.ofScientific

deriving instance DecidableEq for Except

set_option linter.dupNamespace false

/-- Models Go's `int(x)` conversion from `float64`: truncation toward zero. -/
def goInt (q : ℚ) : ℤ :=
  if 0 ≤ q then ⌊q⌋ else ⌈q⌉

/-- Models `math.Trunc`: the integer part of `x`, rounding toward zero. -/
def goTrunc (q : ℚ) : ℚ :=
  ((goInt q : ℤ) : ℚ)

/-- Models `math.Copysign(x, y)`: a value with the magnitude of `x` and the
sign of `y` (a negative zero `y` cannot arise over `ℚ`). -/
def goCopysign (x y : ℚ) : ℚ :=
  if y < 0 then -|x| else |x|

namespace numbers

/-- Function `zeroBeforeDecimal` modifies the float so that it only has zero value
before the decimal point (translated from `numbers.go`). -/
def zeroBeforeDecimal (f : ℚ) : ℚ :=
  let sign : ℚ := if f < 0 then -1 else 1
  let f := if f < 0 then f * (-1) else f
  let floor : ℚ := ((⌊f⌋ : ℤ) : ℚ)
  (f - floor) * sign

/-- The loop body of `multToNonZero`: multiply `v` and `mult` by 10 while
`v < 0.1`.  Go runs the loop unboundedly; it terminates whenever `v ≠ 0`, and
the fuel passed by `multToNonZero` is large enough for every such `v`, so the
fuel-out branch is unreachable on the arguments the package produces. -/
def multToNonZeroAux : ℕ → ℚ → ℤ → ℤ
  | 0, _, mult => mult
  | fuel + 1, v, mult =>
    if v < 1/10 then multToNonZeroAux fuel (v * 10) (mult * 10) else mult

/-- Function `multToNonZero` returns a multiplier for the float, so that the first
decimal place is non-zero; the float must not be zero (from `numbers.go`). -/
def multToNonZero (f : ℚ) : ℤ :=
  let v := if f < 0 then f * (-1) else f
  multToNonZeroAux (v.den + 1) v 1

/-- The loop of `placesToMult`: multiply 1 by 10 once per decimal place. -/
def placesToMultAux : ℕ → ℤ
  | 0 => 1
  | n + 1 => placesToMultAux n * 10

/-- Function `placesToMult` translates the number of decimal places to a multiple of
ten; negative places count like positive ones (from `numbers.go`). -/
def placesToMult (places : ℤ) : ℤ :=
  placesToMultAux places.natAbs

/-- The loop of `multToPlaces`: divide by 10 until the multiplier reaches one,
counting the steps.  The fuel `mult.toNat` dominates the number of divisions
by ten, so the fuel-out branch is unreachable. -/
def multToPlacesAux : ℕ → ℤ → ℤ
  | 0, _ => 0
  | fuel + 1, mult =>
    if mult > 1 then multToPlacesAux fuel (mult / 10) + 1 else 0

/-- Function `multToPlaces` translates the multiple of ten to a number of decimal
places (from `numbers.go`). -/
def multToPlaces (mult : ℤ) : ℤ :=
  multToPlacesAux mult.toNat mult

/-- Function `RoundToNonZeroPlaces` rounds the float up, so that it has at least the
provided number of non-zero decimal places; returns the rounded float and the
number of leading decimal places that are zero (from `numbers.go`). -/
def RoundToNonZeroPlaces (f : ℚ) (places : ℤ) : ℚ × ℤ :=
  if f = 0 then (0, 0)
  else
    let decOnly := zeroBeforeDecimal f
    if decOnly = 0 then (f, 0)
    else
      let nzMult := multToNonZero decOnly
      if places = 0 then (f, multToPlaces nzMult)
      else
        let plMult := placesToMult places
        let m : ℚ := ((nzMult * plMult : ℤ) : ℚ)
        (((⌈f * m⌉ : ℤ) : ℚ) / m, multToPlaces nzMult)

/-- Function `Round` returns the nearest integer, rounding half away from zero
(translated from `numbers.go`; the subtraction `x - t` is exact in float64
whenever `t = Trunc x`, so the rational model is faithful on finite inputs). -/
def Round (x : ℚ) : ℚ :=
  let t := goTrunc x
  if |x - t| ≥ 1/2 then t + goCopysign 1 x else t

/-- Constant `math.MaxFloat64`, the largest finite float64. -/
def maxFloat64 : ℚ := 2 ^ 1024 - 2 ^ 971

/-- Function `MinMax` returns the smallest and the largest value among the provided
values; returns `(0, 0)` if there are no values (from `numbers.go`). -/
def MinMax (values : List ℚ) : ℚ × ℚ :=
  if values.isEmpty then (0, 0)
  else
    values.foldl
      (fun mm v =>
        (if v < mm.1 then v else mm.1, if v > mm.2 then v else mm.2))
      (maxFloat64, -maxFloat64)

/-- Constant `math.MaxInt32`. -/
def maxInt32 : ℤ := 2147483647

/-- Function `MinMaxInts` returns the smallest and the largest int value among the
provided values; returns `(0, 0)` if there are no values (from
`numbers.go`). -/
def MinMaxInts (values : List ℤ) : ℤ × ℤ :=
  if values.isEmpty then (0, 0)
  else
    values.foldl
      (fun mm v =>
        (if v < mm.1 then v else mm.1, if v > mm.2 then v else mm.2))
      (maxInt32, -maxInt32)

/-- The float64 value of `math.Pi`. -/
def Pi : ℚ := 884279719003555 / 281474976710656

/-- Function `RadiansToDegrees` converts radians to the equivalent in degrees
(translated from `numbers.go`). -/
def RadiansToDegrees (radians : ℚ) : ℤ :=
  let d := goInt (Round (radians * 180 / Pi))
  if d < 0 then d + 360 else d

end numbers

namespace braille

/-- Modelled from the spec: the braille canvas collaborator supplies two
positive sub-cell resolution constants (§6); a braille cell has 4 addressable
rows per terminal cell. -/
def RowMult : ℤ := 4

/-- Modelled from the spec: a braille cell has 2 addressable columns per
terminal cell (§6). -/
def ColMult : ℤ := 2

end braille

namespace axes

/-- Structure `Value` of `value.go`.  Modelled from the spec: `value.go` is not among
the sources; §3 gives its fields — the raw measurement, its rounded
counterpart and the precision used to produce it. -/
structure Value where
  Value : ℚ
  Rounded : ℚ
  NonZeroDecimals : ℤ
deriving DecidableEq

/-- Modelled from the spec: `NewValue(raw, nonZeroDecimals)` calls
`RoundToNonZeroPlaces(raw, nonZeroDecimals)` and stores the fields (§4.2). -/
def NewValue (value : ℚ) (nonZeroDecimals : ℤ) : Value :=
  { Value := value
    Rounded := (numbers.RoundToNonZeroPlaces value nonZeroDecimals).1
    NonZeroDecimals := nonZeroDecimals }

/-- Structure `YScale` is the scale of the Y axis (from `scale.go`). -/
structure YScale where
  Min : Value
  Max : Value
  Step : Value
  GraphHeight : ℤ
  brailleHeight : ℤ
deriving DecidableEq

/-- Function `NewYScale` calculates the scale of the Y axis, given the boundary values
and the height of the graph (translated from `scale.go`). -/
def NewYScale (min max : ℚ) (graphHeight nonZeroDecimals : ℤ) :
    Except String YScale :=
  if max < min then .error "max cannot be less than min"
  else if graphHeight < 1 then .error "graphHeight cannot be less than 1"
  else
    let brailleHeight := graphHeight * braille.RowMult
    let usablePixels := brailleHeight - 1
    let min := if min > 0 then 0 else min
    let max := if max < 0 then 0 else max
    let diff := max - min
    let step := NewValue (diff / ((usablePixels : ℤ) : ℚ)) nonZeroDecimals
    .ok
      { Min := NewValue min nonZeroDecimals
        Max := NewValue max nonZeroDecimals
        Step := step
        GraphHeight := graphHeight
        brailleHeight := brailleHeight }

/-- Function `positionToY`, given a position within the height, returns the Y
coordinate of the position; positions grow up, coordinates grow down
(from `scale.go`). -/
def positionToY (pos height : ℤ) : Except String ℤ :=
  let max := height - 1
  if pos < 0 ∨ pos > max then .error "position out of bounds"
  else .ok (max - pos)

/-- Function `yToPosition` is the reverse of `positionToY` (from `scale.go`). -/
def yToPosition (y height : ℤ) : Except String ℤ :=
  let max := height - 1
  if y < 0 ∨ y > max then .error "Y coordinate out of bounds"
  else .ok (-1 * y + max)

/-- Method `PixelToValue` given a Y coordinate of the pixel, returns its value
according to the scale (translated from `scale.go`). -/
def YScale.PixelToValue (ys : YScale) (y : ℤ) : Except String ℚ :=
  match yToPosition y ys.brailleHeight with
  | .error e => .error e
  | .ok pos =>
    if pos = 0 then .ok ys.Min.Rounded
    else if pos = ys.brailleHeight - 1 then .ok ys.Max.Rounded
    else
      let v := ((pos : ℤ) : ℚ) * ys.Step.Rounded
      let v := if ys.Min.Value < 0 then v - (-1 * ys.Min.Value) else v
      .ok v

/-- Method `ValueToPixel` given a value, determines the Y coordinate of the pixel
that most closely represents the value on the line chart according to the
scale (translated from `scale.go`). -/
def YScale.ValueToPixel (ys : YScale) (v : ℚ) : Except String ℤ :=
  if ys.Step.Rounded = 0 then .ok 0
  else
    let v := if ys.Min.Value < 0 then v + (-1 * ys.Min.Value) else v
    let pos := goInt (numbers.Round (v / ys.Step.Rounded))
    positionToY pos ys.brailleHeight

/-- Method `CellLabel` given a Y coordinate of a cell on the canvas, determines the
value of the label next to it (translated from `scale.go`). -/
def YScale.CellLabel (ys : YScale) (y : ℤ) : Except String Value :=
  match yToPosition y ys.GraphHeight with
  | .error e => .error e
  | .ok pos =>
    match positionToY (pos * braille.RowMult) ys.brailleHeight with
    | .error e => .error e
    | .ok pixelY =>
      match ys.PixelToValue pixelY with
      | .error e => .error e
      | .ok v => .ok (NewValue v ys.Min.NonZeroDecimals)

/-- Structure `XScale` is the scale of the X axis (from `scale.go`). -/
structure XScale where
  Min : Value
  Max : Value
  Step : Value
  GraphWidth : ℤ
  brailleWidth : ℤ
deriving DecidableEq

/-- Function `NewXScale` calculates the scale of the X axis, given the number of data
points and the width available to the axis (translated from `scale.go`). -/
def NewXScale (numPoints : ℤ) (graphWidth nonZeroDecimals : ℤ) :
    Except String XScale :=
  if numPoints < 0 then .error "numPoints cannot be negative"
  else if graphWidth < 1 then .error "graphWidth must be at least 1"
  else
    let brailleWidth := graphWidth * braille.ColMult
    let usablePixels := brailleWidth - 1
    let min : ℚ := 0
    let max : ℚ := ((numPoints - 1 : ℤ) : ℚ)
    let max := if max < 0 then 0 else max
    let diff := max - min
    let step := NewValue (diff / ((usablePixels : ℤ) : ℚ)) nonZeroDecimals
    .ok
      { Min := NewValue min nonZeroDecimals
        Max := NewValue max nonZeroDecimals
        Step := step
        GraphWidth := graphWidth
        brailleWidth := brailleWidth }

/-- Method `PixelToValue` given an X coordinate of the pixel, returns its value
according to the scale (translated from `scale.go`). -/
def XScale.PixelToValue (xs : XScale) (x : ℤ) : Except String ℚ :=
  if x < 0 ∨ x ≥ xs.brailleWidth then .error "invalid x coordinate"
  else if x = 0 then .ok xs.Min.Rounded
  else if x = xs.brailleWidth - 1 then .ok xs.Max.Rounded
  else .ok (((x : ℤ) : ℚ) * xs.Step.Rounded)

/-- Method `ValueToPixel` given a value, determines the X coordinate of the pixel
that most closely represents the value (translated from `scale.go`). -/
def XScale.ValueToPixel (xs : XScale) (v : ℤ) : Except String ℤ :=
  let fv : ℚ := ((v : ℤ) : ℚ)
  if fv < xs.Min.Value ∨ fv > xs.Max.Rounded then .error "invalid value"
  else if xs.Step.Rounded = 0 then .ok 0
  else .ok (goInt (numbers.Round (fv / xs.Step.Rounded)))

/-- Method `ValueToCell` given a value, determines the X coordinate of the cell that
most closely represents the value; Go's integer division truncates toward
zero, hence `Int.tdiv` (translated from `scale.go`). -/
def XScale.ValueToCell (xs : XScale) (v : ℤ) : Except String ℤ :=
  match xs.ValueToPixel v with
  | .error e => .error e
  | .ok p => .ok (Int.tdiv p braille.ColMult)

/-- Method `CellLabel` given an X coordinate of a cell on the canvas, determines the
value of the label next to it, rounded to the nearest int (translated from
`scale.go`). -/
def XScale.CellLabel (xs : XScale) (x : ℤ) : Except String Value :=
  match xs.PixelToValue (x * braille.ColMult) with
  | .error e => .error e
  | .ok v => .ok (NewValue (numbers.Round v) xs.Min.NonZeroDecimals)

/-- Models `image.Point`. -/
structure Point where
  X : ℤ
  Y : ℤ
deriving DecidableEq

/-- The number of decimal digits of a natural number (1 for zero); the fuel
`n + 1` dominates the number of divisions by ten. -/
def digitsLenAux : ℕ → ℕ → ℕ
  | 0, _ => 0
  | fuel + 1, n => if n < 10 then 1 else digitsLenAux fuel (n / 10) + 1

/-- Decimal-digit count of a natural number. -/
def digitsLen (n : ℕ) : ℕ :=
  digitsLenAux (n + 1) n

/-- The least `k ≤ 64` with `d ∣ 10 ^ k`, else 0; every rounded label value
has a denominator dividing a power of ten, so the cap is never reached on the
values the package renders. -/
def fracLenAux : ℕ → ℕ → ℕ → ℕ
  | 0, _, k => k
  | fuel + 1, d, k => if 10 ^ k % d = 0 then k else fracLenAux fuel d (k + 1)

/-- The number of digits after the decimal point in the terminating decimal
representation of a fraction with denominator `d`. -/
def fracLen (d : ℕ) : ℕ :=
  fracLenAux 64 d 0

/-- Modelled from the spec: the length of the text Go's formatting produces
for a label value (`value.go`'s `Text` is not among the sources) — an
optional minus sign, the integer digits, and a dot followed by the
(minimal, terminating) fractional digits when the value is not integral. -/
def textLen (q : ℚ) : ℕ :=
  (if q < 0 then 1 else 0) + digitsLen (q.num.natAbs / q.den) +
    (if fracLen q.den = 0 then 0 else 1 + fracLen q.den)

/-- Modelled from the spec: a label is either a numeric `Value` or a
caller-supplied literal text (§3 prescribes the tagged-union shape). -/
inductive LabelValue where
  | num (v : Value)
  | text (s : String)
deriving DecidableEq

/-- Modelled from the spec: `NewTextValue` wraps caller-supplied label
text (used by `label_test.go`). -/
def NewTextValue (s : String) : LabelValue :=
  .text s

/-- Structure `Label` is one label on an axis: its value and the anchor cell position
(from the spec's data model, §3). -/
structure Label where
  Value : LabelValue
  Pos : Point
deriving DecidableEq

/-- Modelled from the spec: `label.go`'s `yLabels` walks the whole-cell rows
bottom-up with a minimum vertical spacing of four rows (one row when the
graph is shorter), labels each visited row via `CellLabel`, and emits each
distinct label text once (§4.5; row set and deduplication match
`label_test.go`). -/
def yLabelsRows (graphHeight : ℤ) : List ℤ :=
  let spacing := min 4 (graphHeight - 1)
  (List.range ((graphHeight - 1) / spacing).toNat.succ).map
    (fun k => graphHeight - 1 - k * spacing)

/-- The per-row walk of `yLabels`: skip rows whose label text was already
emitted, right-align the rest within `labelWidth` columns (anchored at
`labelWidth - textLen`, clamped at column zero). -/
def yLabelsAux (scale : YScale) (labelWidth : ℤ) :
    List ℤ → List ℚ → Except String (List Label)
  | [], _ => .ok []
  | y :: rest, seen =>
    match scale.CellLabel y with
    | .error e => .error e
    | .ok cl =>
      if cl.Rounded ∈ seen then yLabelsAux scale labelWidth rest seen
      else
        match yLabelsAux scale labelWidth rest (cl.Rounded :: seen) with
        | .error e => .error e
        | .ok ls =>
          .ok ({ Value := .num cl
                 Pos := { X := max 0 (labelWidth - (textLen cl.Rounded : ℤ)), Y := y } } :: ls)

/-- Modelled from the spec: `yLabels` returns labels placed next to the Y
axis; fails when the graph is shorter than two rows or the label area is
narrower than one column (§4.5). -/
def yLabels (scale : YScale) (labelWidth : ℤ) : Except String (List Label) :=
  if scale.GraphHeight < 2 then .error "graph height too small for labels"
  else if labelWidth < 1 then .error "label width too small"
  else yLabelsAux scale labelWidth (yLabelsRows scale.GraphHeight) []

/-- Modelled from the spec: the horizontal space still available for X-axis
labels, anchored at `graphZero` (§4.5). -/
structure xSpace where
  min : ℤ
  max : ℤ
  graphZero : Point
deriving DecidableEq

/-- A fresh `xSpace` covering the graph width. -/
def newXSpace (graphZero : Point) (graphWidth : ℤ) : xSpace :=
  { min := 0, max := graphWidth, graphZero := graphZero }

/-- The remaining width of the space. -/
def xSpace.Remaining (xs : xSpace) : ℤ :=
  xs.max - xs.min

/-- The current relative position inside the space. -/
def xSpace.Relative (xs : xSpace) : ℤ :=
  xs.min

/-- The absolute cell position of a label placed at the beginning of the
space: two rows below the graph's zero row. -/
def xSpace.LabelPos (xs : xSpace) : Point :=
  { X := xs.min + xs.graphZero.X, Y := xs.graphZero.Y + 2 }

/-- Subtracts the provided width from the space. -/
def xSpace.Sub (xs : xSpace) (width : ℤ) : Except String xSpace :=
  if xs.Remaining < width then .error "not enough remaining space"
  else .ok { xs with min := xs.min + width }

/-- Modelled from the spec: `colLabel` resolves the label for the column at
the beginning of the space via `CellLabel`, replaces its text by the
caller-supplied override for that data index when one exists, and drops the
label (returning no error) when its text does not fit in the remaining
width (§4.5). -/
def colLabel (scale : XScale) (space : xSpace)
    (customLabels : List (ℤ × String)) : Except String (Option (Label × xSpace)) :=
  match scale.CellLabel space.Relative with
  | .error e => .error e
  | .ok label =>
    let lv : LabelValue :=
      match customLabels.lookup (goInt label.Value) with
      | some custom => NewTextValue custom
      | none => .num label
    let l : Label := { Value := lv, Pos := space.LabelPos }
    let labelLen : ℤ :=
      match lv with
      | .text s => (s.length : ℤ)
      | .num v => (textLen v.Rounded : ℤ)
    if labelLen > space.Remaining then .ok none
    else
      match space.Sub labelLen with
      | .error e => .error e
      | .ok space1 => .ok (some (l, space1))

/-- The minimum spacing between two X-axis labels, in cells. -/
def minSpacing : ℤ := 3

/-- Modelled from the spec: the greedy forward loop of `xLabels` — place the
label for the current column, stop after the last data index, otherwise jump
to the cell of the next data index (at least `minSpacing` cells ahead) while
room remains (§4.5).  Each iteration either stops or consumes at least
`minSpacing` cells, so the fuel passed by `xLabels` dominates the number of
iterations and the fuel-out branch is unreachable. -/
def xLabelsAux (scale : XScale) (customLabels : List (ℤ × String)) :
    ℕ → xSpace → ℤ → List Label → Except String (List Label)
  | 0, _, _, res => .ok res
  | fuel + 1, space, next, res =>
    if space.Remaining > 0 then
      match colLabel scale space customLabels with
      | .error e => .error e
      | .ok none => .ok res
      | .ok (some (label, space1)) =>
        let res1 := res ++ [label]
        let next1 := next + 1
        if next1 > goInt scale.Max.Value then .ok res1
        else
          match scale.ValueToCell next1 with
          | .error e => .error e
          | .ok nextCell =>
            let skip := nextCell - space1.Relative
            let skip := if skip < minSpacing then minSpacing else skip
            if space1.Remaining ≤ skip then .ok res1
            else
              match space1.Sub skip with
              | .error e => .error e
              | .ok space2 => xLabelsAux scale customLabels fuel space2 next1 res1
    else .ok res

/-- Modelled from the spec: `xLabels` returns labels that should be placed
under the X axis, anchored at `graphZero`, with optional per-index text
overrides (§4.5). -/
def xLabels (scale : XScale) (graphZero : Point)
    (customLabels : List (ℤ × String)) : Except String (List Label) :=
  xLabelsAux scale customLabels (scale.GraphWidth.toNat + 2)
    (newXSpace graphZero scale.GraphWidth) 0 []

end axes

/-- An IEEE-754 float64 with its special values: NaN, signed infinities, and
finite values carried as a sign bit plus an exact nonnegative rational
magnitude (so `fin true 0` is the negative zero).  Used to settle the
special-value behaviour of `numbers.Round`, whose float64 operations
(`Trunc`, `Abs`, `Copysign`, subtracting a value's truncation, adding one)
are all exact on the arguments `Round` produces. -/
inductive GoFloat where
  | nan
  | inf (neg : Bool)
  | fin (neg : Bool) (mag : ℚ)
deriving DecidableEq

namespace GoFloat

/-- The rational value of a finite `GoFloat` (0 for NaN and infinities). -/
def val : GoFloat → ℚ
  | nan => 0
  | inf _ => 0
  | fin neg mag => if neg then -mag else mag

/-- The sign bit, as read by `math.Copysign`. -/
def signBit : GoFloat → Bool
  | nan => false
  | inf neg => neg
  | fin neg _ => neg

/-- Models `math.Trunc`: NaN and infinities pass through, finite magnitudes
are floored (the magnitude is nonnegative, so this rounds toward zero). -/
def trunc : GoFloat → GoFloat
  | nan => nan
  | inf neg => inf neg
  | fin neg mag => fin neg ((⌊mag⌋ : ℤ) : ℚ)

/-- Models float64 subtraction on the arguments `Round` uses; the result of
subtracting a float's truncation is exactly representable, so the finite case
is exact, and an exact zero takes the positive sign as IEEE-754
round-to-nearest prescribes. -/
def sub (x y : GoFloat) : GoFloat :=
  match x, y with
  | nan, _ => nan
  | _, nan => nan
  | inf s, inf t => if s = t then nan else inf s
  | inf s, fin _ _ => inf s
  | fin _ _, inf t => inf (!t)
  | fin s q, fin t r =>
    let d := (if s then -q else q) - (if t then -r else r)
    if d = 0 then fin false 0 else fin (decide (d < 0)) |d|

/-- Models float64 addition on the arguments `Round` uses (adding `±1` to an
integral value is exact); an exact zero takes the positive sign. -/
def add (x y : GoFloat) : GoFloat :=
  match x, y with
  | nan, _ => nan
  | _, nan => nan
  | inf s, inf t => if s = t then inf s else nan
  | inf s, fin _ _ => inf s
  | fin _ _, inf t => inf t
  | fin s q, fin t r =>
    let d := (if s then -q else q) + (if t then -r else r)
    if d = 0 then fin false 0 else fin (decide (d < 0)) |d|

/-- Models `math.Abs`. -/
def abs : GoFloat → GoFloat
  | nan => nan
  | inf _ => inf false
  | fin _ mag => fin false mag

/-- Models the comparison `x >= 0.5` (false on NaN, as every IEEE comparison
with NaN is). -/
def geHalf : GoFloat → Bool
  | nan => false
  | inf neg => !neg
  | fin neg mag => if neg then decide (mag = 0 ∧ (1:ℚ)/2 ≤ 0) else decide (1/2 ≤ mag)

/-- Models `math.Copysign(1, x)`. -/
def copysignOne (x : GoFloat) : GoFloat :=
  fin x.signBit 1

/-- Function `Round` of `numbers.go`, over the float64 model with special values:
`t := Trunc x; if Abs(x-t) >= 0.5 then t + Copysign(1, x) else t`. -/
def Round (x : GoFloat) : GoFloat :=
  let t := trunc x
  if geHalf (abs (sub x t)) then add t (copysignOne x) else t

end GoFloat

/-! ## Helper lemmas -/

theorem multToNonZeroAux_pos :
    ∀ (fuel : ℕ) (v : ℚ) (mult : ℤ), 0 < mult →
      0 < numbers.multToNonZeroAux fuel v mult
  | 0, _, _, h => h
  | fuel + 1, v, mult, h => by
    unfold numbers.multToNonZeroAux
    split_ifs
    · exact multToNonZeroAux_pos fuel (v * 10) (mult * 10) (by omega)
    · exact h

theorem multToNonZero_pos (f : ℚ) : 0 < numbers.multToNonZero f :=
  multToNonZeroAux_pos _ _ _ one_pos

theorem placesToMultAux_pos : ∀ n : ℕ, 0 < numbers.placesToMultAux n
  | 0 => one_pos
  | n + 1 => by
    unfold numbers.placesToMultAux
    have := placesToMultAux_pos n
    omega

theorem placesToMult_pos (places : ℤ) : 0 < numbers.placesToMult places :=
  placesToMultAux_pos _

theorem goInt_intCast (n : ℤ) : goInt ((n : ℤ) : ℚ) = n := by
  unfold goInt
  split_ifs <;> simp

theorem goTrunc_intCast (n : ℤ) : goTrunc ((n : ℤ) : ℚ) = ((n : ℤ) : ℚ) := by
  unfold goTrunc
  rw [goInt_intCast]

theorem numbersRound_intCast (n : ℤ) :
    numbers.Round ((n : ℤ) : ℚ) = ((n : ℤ) : ℚ) := by
  unfold numbers.Round
  rw [goTrunc_intCast, if_neg]
  rw [sub_self, abs_zero]
  norm_num

/-- Unfolding lemma: the fields of a successfully constructed Y scale. -/
theorem newYScale_ok_elim (mn mx : ℚ) (gh nzd : ℤ) (ys : axes.YScale)
    (h : axes.NewYScale mn mx gh nzd = .ok ys) :
    ¬mx < mn ∧ ¬gh < 1 ∧
    ys = { Min := axes.NewValue (if mn > 0 then 0 else mn) nzd
           Max := axes.NewValue (if mx < 0 then 0 else mx) nzd
           Step := axes.NewValue
             (((if mx < 0 then 0 else mx) - (if mn > 0 then 0 else mn)) /
               ((gh * braille.RowMult - 1 : ℤ) : ℚ)) nzd
           GraphHeight := gh
           brailleHeight := gh * braille.RowMult } := by
  unfold axes.NewYScale at h
  split_ifs at h
  all_goals
    dsimp only at h
    rw [Except.ok.injEq] at h
    subst h
    refine ⟨by assumption, by assumption, ?_⟩
    split_ifs
    all_goals rfl

@[simp]
theorem newValue_Value (v : ℚ) (nzd : ℤ) : (axes.NewValue v nzd).Value = v :=
  rfl

/-! ## Claim theorems -/

/-- Claim C6: `RoundToNonZeroPlaces` always rounds up, never down — the
rounded component is at least the input for every value and every number of
places — and the three concrete cases of the spec hold:
`(0.00012345, 2) ↦ (0.00013, 3)`, `(1.234567, 2) ↦ (1.24, 0)` and
`(-1.234567, 2) ↦ (-1.23, 0)`. -/
theorem roundToNonZeroPlaces_rounds_up :
    (∀ (v : ℚ) (places : ℤ), v ≤ (numbers.RoundToNonZeroPlaces v places).1) ∧
    numbers.RoundToNonZeroPlaces (12345/100000000) 2 = (13/100000, 3) ∧
    numbers.RoundToNonZeroPlaces (1234567/1000000) 2 = (124/100, 0) ∧
    numbers.RoundToNonZeroPlaces (-(1234567/1000000)) 2 = (-(123/100), 0) := by
  refine ⟨?_, by decide, by decide, by decide⟩
  intro v places
  unfold numbers.RoundToNonZeroPlaces
  dsimp only
  split_ifs with h0 hd hp
  · simp [h0]
  · exact le_refl v
  · exact le_refl v
  · have hm : (0 : ℚ) <
        ((numbers.multToNonZero (numbers.zeroBeforeDecimal v) *
          numbers.placesToMult places : ℤ) : ℚ) := by
      exact_mod_cast mul_pos (multToNonZero_pos _) (placesToMult_pos _)
    dsimp only
    rw [le_div_iff₀ hm]
    exact Int.le_ceil _

/-- Claim C7 (failing input): on 64-bit Go ints, `MinMaxInts` applied to the
list holding only `2147483648 = MaxInt32 + 1` reports the `MaxInt32` sentinel
as the minimum — a value that is not among the inputs — contradicting the
claim (and the function's own doc comment) that the true minimum is
returned. -/
theorem minMaxInts_sentinel_eval :
    numbers.MinMaxInts [2147483648] = (2147483647, 2147483648) ∧
    (numbers.MinMaxInts [2147483648]).1 ∉ ([2147483648] : List ℤ) := by
  decide

/-- Claim C10: on a degenerate (flat) Y scale, with `Step.Rounded == 0`,
`ValueToPixel` returns pixel 0 and no error for every input value, bounds
included or not — the degenerate-step early return precedes all other
checks. -/
theorem valueToPixel_degenerate_step (ys : axes.YScale)
    (h : ys.Step.Rounded = 0) (v : ℚ) : ys.ValueToPixel v = .ok 0 := by
  unfold axes.YScale.ValueToPixel
  rw [if_pos h]

/-- Concrete scale used by the witnesses: the result of
`NewYScale(0, 0, 2, 2)`, a flat range with step zero. -/
def flatYScale : axes.YScale :=
  { Min := axes.NewValue 0 2
    Max := axes.NewValue 0 2
    Step := axes.NewValue 0 2
    GraphHeight := 2
    brailleHeight := 8 }

/-- Witness for C10: the flat scale produced by `NewYScale(0, 0, 2, 2)` has
step zero and maps the far-out-of-range value 123456 to pixel 0 without an
error. -/
theorem valueToPixel_degenerate_step_witness :
    axes.NewYScale 0 0 2 2 = .ok flatYScale ∧
    flatYScale.ValueToPixel 123456 = .ok 0 :=
  ⟨by decide, valueToPixel_degenerate_step flatYScale (by decide) 123456⟩

/-- On the bottom braille row, `PixelToValue` returns exactly the rounded
minimum. -/
theorem pixelToValue_bottom (ys : axes.YScale) (hbh : 1 ≤ ys.brailleHeight) :
    ys.PixelToValue (ys.brailleHeight - 1) = .ok ys.Min.Rounded := by
  unfold axes.YScale.PixelToValue axes.yToPosition
  dsimp only
  rw [if_neg (show ¬(ys.brailleHeight - 1 < 0 ∨
      ys.brailleHeight - 1 > ys.brailleHeight - 1) by omega)]
  dsimp only
  rw [show -1 * (ys.brailleHeight - 1) + (ys.brailleHeight - 1) = 0 by ring]
  rw [if_pos rfl]

/-- On the top braille row, `PixelToValue` returns exactly the rounded
maximum. -/
theorem pixelToValue_top (ys : axes.YScale) (hbh : 2 ≤ ys.brailleHeight) :
    ys.PixelToValue 0 = .ok ys.Max.Rounded := by
  unfold axes.YScale.PixelToValue axes.yToPosition
  dsimp only
  rw [if_neg (show ¬((0 : ℤ) < 0 ∨ (0 : ℤ) > ys.brailleHeight - 1) by omega)]
  dsimp only
  rw [show (-1 : ℤ) * 0 + (ys.brailleHeight - 1) = ys.brailleHeight - 1 by ring]
  rw [if_neg (show ¬(ys.brailleHeight - 1 = 0) by omega), if_pos rfl]

/-- On an interior braille row, `PixelToValue` returns the position times the
rounded step, shifted down by `|Min|` when the minimum is negative. -/
theorem pixelToValue_interior (ys : axes.YScale) (y : ℤ) (h1 : 1 ≤ y)
    (h2 : y ≤ ys.brailleHeight - 2) :
    ys.PixelToValue y =
      .ok ((((-1 * y + (ys.brailleHeight - 1)) : ℤ) : ℚ) * ys.Step.Rounded -
        (if ys.Min.Value < 0 then -1 * ys.Min.Value else 0)) := by
  unfold axes.YScale.PixelToValue axes.yToPosition
  dsimp only
  rw [if_neg (show ¬(y < 0 ∨ y > ys.brailleHeight - 1) by omega)]
  dsimp only
  rw [if_neg (show ¬(-1 * y + (ys.brailleHeight - 1) = 0) by omega),
      if_neg (show ¬(-1 * y + (ys.brailleHeight - 1) = ys.brailleHeight - 1) by omega)]
  split_ifs with hmin
  · rfl
  · rw [sub_zero]

/-- Method `ValueToPixel` inverts the interior value formula: a value lying exactly
`pos` steps above the (shifted) origin maps back to the Y coordinate
`brailleHeight - 1 - pos`. -/
theorem valueToPixel_of_pos (ys : axes.YScale) (hstep : ys.Step.Rounded ≠ 0)
    (pos : ℤ) (hp0 : 0 ≤ pos) (hp1 : pos ≤ ys.brailleHeight - 1) :
    ys.ValueToPixel (((pos : ℤ) : ℚ) * ys.Step.Rounded -
        (if ys.Min.Value < 0 then -1 * ys.Min.Value else 0)) =
      .ok (ys.brailleHeight - 1 - pos) := by
  unfold axes.YScale.ValueToPixel
  rw [if_neg hstep]
  dsimp only
  split_ifs with hmin
  · rw [show ((pos : ℤ) : ℚ) * ys.Step.Rounded - -1 * ys.Min.Value +
        -1 * ys.Min.Value = ((pos : ℤ) : ℚ) * ys.Step.Rounded by ring]
    rw [mul_div_cancel_right₀ _ hstep, numbersRound_intCast, goInt_intCast]
    unfold axes.positionToY
    dsimp only
    rw [if_neg (show ¬(pos < 0 ∨ pos > ys.brailleHeight - 1) by omega)]
  · rw [sub_zero, mul_div_cancel_right₀ _ hstep, numbersRound_intCast,
      goInt_intCast]
    unfold axes.positionToY
    dsimp only
    rw [if_neg (show ¬(pos < 0 ∨ pos > ys.brailleHeight - 1) by omega)]

/-- Claim C1: on every Y scale successfully built by `NewYScale` whose
rounded step is non-zero, `ValueToPixel` inverts `PixelToValue` on every
interior braille row `1 ≤ y ≤ brailleHeight - 2`, and the boundary rows map
exactly: the bottom row to `Min.Rounded` and the top row to `Max.Rounded`. -/
theorem yScale_pixel_value_roundtrip (mn mx : ℚ) (gh nzd : ℤ)
    (ys : axes.YScale) (h : axes.NewYScale mn mx gh nzd = .ok ys)
    (hstep : ys.Step.Rounded ≠ 0) :
    (∀ y : ℤ, 1 ≤ y → y ≤ ys.brailleHeight - 2 →
      ∃ v, ys.PixelToValue y = .ok v ∧ ys.ValueToPixel v = .ok y) ∧
    ys.PixelToValue (ys.brailleHeight - 1) = .ok ys.Min.Rounded ∧
    ys.PixelToValue 0 = .ok ys.Max.Rounded := by
  obtain ⟨hr, hg, hrec⟩ := newYScale_ok_elim mn mx gh nzd ys h
  have hbh : 2 ≤ ys.brailleHeight := by
    rw [hrec]
    show 2 ≤ gh * braille.RowMult
    unfold braille.RowMult
    omega
  refine ⟨?_, pixelToValue_bottom ys (by omega), pixelToValue_top ys hbh⟩
  intro y h1 h2
  refine ⟨_, pixelToValue_interior ys y h1 h2, ?_⟩
  rw [valueToPixel_of_pos ys hstep (-1 * y + (ys.brailleHeight - 1))
    (by omega) (by omega)]
  congr 1
  omega

/-- Concrete scale used by the C1 witness: the result of
`NewYScale(0, 5, 2, 2)`, with rounded step `0.72`. -/
def ysRound : axes.YScale :=
  { Min := axes.NewValue 0 2
    Max := axes.NewValue 5 2
    Step := axes.NewValue (5/7) 2
    GraphHeight := 2
    brailleHeight := 8 }

/-- Witness for C1: on the scale of `NewYScale(0, 5, 2, 2)` the interior row
`y = 3` round-trips through `PixelToValue`/`ValueToPixel`, and the boundary
rows map to the rounded minimum and maximum. -/
theorem yScale_pixel_value_roundtrip_witness :
    (∃ v, ysRound.PixelToValue 3 = .ok v ∧ ysRound.ValueToPixel v = .ok 3) ∧
    ysRound.PixelToValue (ysRound.brailleHeight - 1) = .ok ysRound.Min.Rounded ∧
    ysRound.PixelToValue 0 = .ok ysRound.Max.Rounded := by
  have h := yScale_pixel_value_roundtrip 0 5 2 2 ysRound (by decide) (by decide)
  exact ⟨h.1 3 (by decide) (by decide), h.2⟩

/-- Claim C2: every successfully constructed Y scale has
`Min.Value ≤ 0 ≤ Max.Value`; a positive caller minimum is clamped to 0 with
the maximum kept, a negative caller maximum is clamped to 0 with the minimum
kept, and otherwise both bounds are the caller's values unchanged. -/
theorem newYScale_zero_inclusion (mn mx : ℚ) (gh nzd : ℤ) (ys : axes.YScale)
    (h : axes.NewYScale mn mx gh nzd = .ok ys) :
    (ys.Min.Value ≤ 0 ∧ 0 ≤ ys.Max.Value) ∧
    (0 < mn → ys.Min.Value = 0 ∧ ys.Max.Value = mx) ∧
    (mx < 0 → ys.Max.Value = 0 ∧ ys.Min.Value = mn) ∧
    (mn ≤ 0 → 0 ≤ mx → ys.Min.Value = mn ∧ ys.Max.Value = mx) := by
  obtain ⟨hr, hg, hrec⟩ := newYScale_ok_elim mn mx gh nzd ys h
  subst hrec
  have hr' : mn ≤ mx := le_of_not_lt hr
  dsimp only [newValue_Value]
  refine ⟨⟨?_, ?_⟩, ?_, ?_, ?_⟩
  · split_ifs with hmn
    · exact le_refl 0
    · exact le_of_not_lt hmn
  · split_ifs with hmx
    · exact le_refl 0
    · exact le_of_not_lt hmx
  · intro hmn
    exact ⟨if_pos hmn, if_neg (by linarith : ¬mx < 0)⟩
  · intro hmx
    exact ⟨if_pos hmx, if_neg (by linarith : ¬mn > 0)⟩
  · intro hmn hmx
    exact ⟨if_neg (not_lt.mpr hmn), if_neg (not_lt.mpr hmx)⟩

/-- Concrete scale used by the C2 witness: the result of
`NewYScale(5, 7, 2, 2)`, whose positive caller minimum is clamped to 0. -/
def ysClamped : axes.YScale :=
  { Min := axes.NewValue 0 2
    Max := axes.NewValue 7 2
    Step := axes.NewValue 1 2
    GraphHeight := 2
    brailleHeight := 8 }

/-- Witness for C2: `NewYScale(5, 7, 2, 2)` clamps the minimum to 0 and keeps
the caller's maximum 7. -/
theorem newYScale_zero_inclusion_witness :
    (ysClamped.Min.Value ≤ 0 ∧ 0 ≤ ysClamped.Max.Value) ∧
    ysClamped.Min.Value = 0 ∧ ysClamped.Max.Value = 7 := by
  have h := newYScale_zero_inclusion 5 7 2 2 ysClamped (by decide)
  exact ⟨h.1, h.2.1 (by norm_num)⟩

/-- Counterexample for C8: the radian value −7 rounds to −401 degrees, and a
single `+360` wrap leaves the result at −41, outside `[0, 360)` — the claim
that every negative pre-normalization value lands in `[0, 360)` is false. -/
theorem radiansToDegrees_wrap_counterexample :
    goInt (numbers.Round ((-7) * 180 / numbers.Pi)) = -401 ∧
    numbers.RadiansToDegrees (-7) = -41 ∧
    ¬(0 ≤ numbers.RadiansToDegrees (-7) ∧ numbers.RadiansToDegrees (-7) < 360) := by
  decide

/-- Claim C8 (amended): `RadiansToDegrees` rounds its argument to the nearest
integer degree, half away from zero, truncates to int, and adds 360 exactly
once when the result is negative; the returned value lies in `[0, 360)`
whenever the pre-normalization rounded value lies in `[-360, 0)` (a single
wrap — more negative inputs stay negative). -/
theorem radiansToDegrees_single_wrap (r : ℚ) :
    numbers.RadiansToDegrees r =
      (if goInt (numbers.Round (r * 180 / numbers.Pi)) < 0
       then goInt (numbers.Round (r * 180 / numbers.Pi)) + 360
       else goInt (numbers.Round (r * 180 / numbers.Pi))) ∧
    (-360 ≤ goInt (numbers.Round (r * 180 / numbers.Pi)) →
      goInt (numbers.Round (r * 180 / numbers.Pi)) < 0 →
      0 ≤ numbers.RadiansToDegrees r ∧ numbers.RadiansToDegrees r < 360) := by
  unfold numbers.RadiansToDegrees
  dsimp only
  refine ⟨rfl, fun hlo hneg => ?_⟩
  rw [if_pos hneg]
  omega

/-- Witness for C8 (amended): the radian value −0.01 rounds to −1 degree,
which is wrapped once into 359, inside `[0, 360)`. -/
theorem radiansToDegrees_single_wrap_witness :
    numbers.RadiansToDegrees (-(1/100)) = 359 ∧
    (0 ≤ numbers.RadiansToDegrees (-(1/100)) ∧
      numbers.RadiansToDegrees (-(1/100)) < 360) := by
  have h := radiansToDegrees_single_wrap (-(1/100))
  exact ⟨by decide, h.2 (by decide) (by decide)⟩

/-- Claim C9: `Round` returns the nearest integer with ties away from zero
for every finite float (`⌊m + 1/2⌋` applied to the magnitude, keeping the
sign), and in particular `Round(2.5) = 3`, `Round(-2.5) = -3`,
`Round(0.49999999999999994) = 0`, `Round(0.5) = 1`; it preserves the sign of
zero and passes NaN and the infinities through unchanged. -/
theorem goRound_half_away_from_zero :
    (∀ (s : Bool) (m : ℚ), 0 ≤ m →
      GoFloat.Round (.fin s m) = .fin s ((⌊m + 1/2⌋ : ℤ) : ℚ)) ∧
    GoFloat.Round (.fin false (5/2)) = .fin false 3 ∧
    GoFloat.Round (.fin true (5/2)) = .fin true 3 ∧
    GoFloat.Round (.fin false (49999999999999994/100000000000000000)) = .fin false 0 ∧
    GoFloat.Round (.fin false (1/2)) = .fin false 1 ∧
    GoFloat.Round (.fin true 0) = .fin true 0 ∧
    GoFloat.Round .nan = .nan ∧
    (∀ b, GoFloat.Round (.inf b) = .inf b) := by
  refine ⟨?_, by decide, by decide, by decide, by decide, by decide, by decide,
    fun b => by cases b <;> decide⟩
  intro s m hm
  have h1 : ((⌊m⌋ : ℤ) : ℚ) ≤ m := Int.floor_le m
  have h2 : m < ((⌊m⌋ : ℤ) : ℚ) + 1 := Int.lt_floor_add_one m
  have hk0 : (0 : ℚ) ≤ ((⌊m⌋ : ℤ) : ℚ) := by
    exact_mod_cast Int.floor_nonneg.mpr hm
  by_cases hfz : m - ((⌊m⌋ : ℤ) : ℚ) = 0
  · -- exact integer: the fractional part is zero and `Round` returns `Trunc`
    have hfloor : ⌊m + 1/2⌋ = ⌊m⌋ := by
      rw [Int.floor_eq_iff]
      constructor <;> linarith
    have hmk : m = ((⌊m⌋ : ℤ) : ℚ) := by linarith
    rw [hfloor]
    cases s
    · unfold GoFloat.Round
      simp only [GoFloat.trunc, GoFloat.sub, GoFloat.copysignOne,
        GoFloat.signBit, Bool.false_eq_true, if_false]
      rw [if_pos hfz]
      simp only [GoFloat.abs, GoFloat.geHalf, Bool.false_eq_true, if_false]
      rw [if_neg (show ¬(decide ((1:ℚ)/2 ≤ (0:ℚ)) = true) by simp)]
    · unfold GoFloat.Round
      simp only [GoFloat.trunc, GoFloat.sub, GoFloat.copysignOne,
        GoFloat.signBit, if_true]
      rw [if_pos (show -m - -((⌊m⌋ : ℤ) : ℚ) = 0 by linarith)]
      simp only [GoFloat.abs, GoFloat.geHalf, Bool.false_eq_true, if_false]
      rw [if_neg (show ¬(decide ((1:ℚ)/2 ≤ (0:ℚ)) = true) by simp)]
  · have hlt : ((⌊m⌋ : ℤ) : ℚ) < m :=
      lt_of_le_of_ne h1 (fun h0 => hfz (by linarith))
    rcases le_or_lt (1/2 : ℚ) (m - ((⌊m⌋ : ℤ) : ℚ)) with hhalf | hhalf
    · -- fractional part at least one half: round away from zero
      have hfloor : ⌊m + 1/2⌋ = ⌊m⌋ + 1 := by
        rw [Int.floor_eq_iff]
        push_cast
        constructor <;> linarith
      rw [hfloor]
      cases s
      · unfold GoFloat.Round
        simp only [GoFloat.trunc, GoFloat.sub, GoFloat.abs, GoFloat.geHalf,
          GoFloat.copysignOne, GoFloat.signBit, GoFloat.add, Bool.false_eq_true,
          if_false, if_neg hfz]
        rw [show |m - ((⌊m⌋ : ℤ) : ℚ)| = m - ((⌊m⌋ : ℤ) : ℚ) from
          abs_of_nonneg (by linarith)]
        rw [if_pos (decide_eq_true hhalf)]
        rw [if_neg (show ¬(((⌊m⌋ : ℤ) : ℚ) + 1 = 0) by intro h0; linarith)]
        rw [show (decide (((⌊m⌋ : ℤ) : ℚ) + 1 < 0)) = false from
          decide_eq_false (by linarith)]
        rw [show |((⌊m⌋ : ℤ) : ℚ) + 1| = ((⌊m⌋ : ℤ) : ℚ) + 1 from
          abs_of_nonneg (by linarith)]
        push_cast
        rfl
      · unfold GoFloat.Round
        simp only [GoFloat.trunc, GoFloat.sub, GoFloat.copysignOne,
          GoFloat.signBit, if_true]
        rw [if_neg (show ¬(-m - -((⌊m⌋ : ℤ) : ℚ) = 0) by intro h0; exact hfz (by linarith))]
        simp only [GoFloat.abs, GoFloat.geHalf, GoFloat.add, Bool.false_eq_true,
          if_false, if_true]
        rw [show |-m - -((⌊m⌋ : ℤ) : ℚ)| = m - ((⌊m⌋ : ℤ) : ℚ) by
          rw [show -m - -((⌊m⌋ : ℤ) : ℚ) = -(m - ((⌊m⌋ : ℤ) : ℚ)) by ring, abs_neg]
          exact abs_of_nonneg (by linarith)]
        rw [if_pos (decide_eq_true hhalf)]
        rw [if_neg (show ¬(-((⌊m⌋ : ℤ) : ℚ) + -1 = 0) by intro h0; linarith)]
        rw [show (decide (-((⌊m⌋ : ℤ) : ℚ) + -1 < 0)) = true from
          decide_eq_true (by linarith)]
        rw [show |-((⌊m⌋ : ℤ) : ℚ) + -1| = ((⌊m⌋ : ℤ) : ℚ) + 1 by
          rw [show -((⌊m⌋ : ℤ) : ℚ) + -1 = -(((⌊m⌋ : ℤ) : ℚ) + 1) by ring, abs_neg]
          exact abs_of_nonneg (by linarith)]
        push_cast
        rfl
    · -- fractional part below one half: round toward zero
      have hfloor : ⌊m + 1/2⌋ = ⌊m⌋ := by
        rw [Int.floor_eq_iff]
        constructor <;> linarith
      rw [hfloor]
      cases s
      · unfold GoFloat.Round
        simp only [GoFloat.trunc, GoFloat.sub, GoFloat.abs, GoFloat.geHalf,
          GoFloat.copysignOne, GoFloat.signBit, GoFloat.add, Bool.false_eq_true,
          if_false, if_neg hfz]
        rw [show |m - ((⌊m⌋ : ℤ) : ℚ)| = m - ((⌊m⌋ : ℤ) : ℚ) from
          abs_of_nonneg (by linarith)]
        rw [if_neg (show ¬(decide ((1:ℚ)/2 ≤ m - ((⌊m⌋ : ℤ) : ℚ)) = true) by
          rw [decide_eq_true_eq]; intro hc; linarith)]
      · unfold GoFloat.Round
        simp only [GoFloat.trunc, GoFloat.sub, GoFloat.copysignOne,
          GoFloat.signBit, if_true]
        rw [if_neg (show ¬(-m - -((⌊m⌋ : ℤ) : ℚ) = 0) by intro h0; exact hfz (by linarith))]
        simp only [GoFloat.abs, GoFloat.geHalf, Bool.false_eq_true, if_false]
        rw [show |-m - -((⌊m⌋ : ℤ) : ℚ)| = m - ((⌊m⌋ : ℤ) : ℚ) by
          rw [show -m - -((⌊m⌋ : ℤ) : ℚ) = -(m - ((⌊m⌋ : ℤ) : ℚ)) by ring, abs_neg]
          exact abs_of_nonneg (by linarith)]
        rw [if_neg (show ¬(decide ((1:ℚ)/2 ≤ m - ((⌊m⌋ : ℤ) : ℚ)) = true) by
          rw [decide_eq_true_eq]; intro hc; linarith)]

/-- Witness for C9: `Round(3.5) = 4` with the positive sign kept, via the
general half-away-from-zero rule. -/
theorem goRound_half_away_from_zero_witness :
    GoFloat.Round (.fin false (7/2)) = .fin false ((⌊(7:ℚ)/2 + 1/2⌋ : ℤ) : ℚ) :=
  goRound_half_away_from_zero.1 false (7/2) (by norm_num)

/-- Claim C3: on the flat-range scale of
`NewYScale(min = 5, max = 5, graphHeight = 2, nonZeroDecimals = 2)` with
`labelWidth = 1`, `yLabels` returns exactly two labels — the bottom boundary
label with numeric value 0 at cell `(0, 1)` and a second label with numeric
value 2.88 at cell `(0, 0)`. -/
theorem yLabels_flat_range :
    (axes.NewYScale 5 5 2 2).bind (fun ys => axes.yLabels ys 1) =
      .ok [⟨.num (axes.NewValue 0 2), ⟨0, 1⟩⟩,
           ⟨.num (axes.NewValue (288/100) 2), ⟨0, 0⟩⟩] := by
  decide

/-- Claim C4: on the scale of
`NewXScale(numPoints = 4, graphWidth = 100, nonZeroDecimals = 2)`,
with `graphZero = (0, 1)` and no custom labels, `xLabels` returns exactly
four labels with numeric values 0, 1, 2, 3 at X positions 0, 31, 62 and 94
(the last position pulled back so the label fits the end of the graph). -/
theorem xLabels_four_points :
    (axes.NewXScale 4 100 2).bind (fun xs => axes.xLabels xs ⟨0, 1⟩ []) =
      .ok [⟨.num (axes.NewValue 0 2), ⟨0, 3⟩⟩,
           ⟨.num (axes.NewValue 1 2), ⟨31, 3⟩⟩,
           ⟨.num (axes.NewValue 2 2), ⟨62, 3⟩⟩,
           ⟨.num (axes.NewValue 3 2), ⟨94, 3⟩⟩] := by
  decide

/-- Claim C5: when the custom label for index 0 is wider than the whole
graph, `xLabels` returns the empty label set and no error — the oversized
label is dropped, not reported as a failure. -/
theorem xLabels_oversized_custom :
    (axes.NewXScale 2 6 2).bind
        (fun xs => axes.xLabels xs ⟨0, 1⟩ [(0, "a very very long custom label")]) =
      .ok [] := by
  decide
/-!
## Validation of the embedding against the repository's test expectations

The following anonymous checks evaluate the embedded definitions on every
scenario of `TestYLabels` and `TestXLabels` of
`widgets/linechart/axes/label_test.go`, plus concrete cases from
`numbers_test.go`; each states the output the Go test expects.
-/

example : axes.NewYScale 5 5 2 2 =
    .ok { Min := axes.NewValue 0 2, Max := axes.NewValue 5 2,
          Step := axes.NewValue (5/7) 2, GraphHeight := 2, brailleHeight := 8 } := by
  decide
example : (axes.NewValue (5/7) 2).Rounded = 72/100 := by decide
example : (axes.NewYScale 5 5 2 2).bind (fun ys => ys.CellLabel 0) =
    .ok (axes.NewValue (288/100) 2) := by decide

-- every TestYLabels case
example : ((axes.NewYScale 0 1 1 2).bind (fun ys => axes.yLabels ys 4)).isOk = false := by decide
example : ((axes.NewYScale 0 1 2 2).bind (fun ys => axes.yLabels ys 0)).isOk = false := by decide
example : (axes.NewYScale 0 0 2 2).bind (fun ys => axes.yLabels ys 1) =
    .ok [⟨.num (axes.NewValue 0 2), ⟨0, 1⟩⟩] := by decide
example : (axes.NewYScale 0 0 25 2).bind (fun ys => axes.yLabels ys 1) =
    .ok [⟨.num (axes.NewValue 0 2), ⟨0, 24⟩⟩] := by decide
example : (axes.NewYScale 5 5 2 2).bind (fun ys => axes.yLabels ys 1) =
    .ok [⟨.num (axes.NewValue 0 2), ⟨0, 1⟩⟩,
         ⟨.num (axes.NewValue (288/100) 2), ⟨0, 0⟩⟩] := by decide
example : (axes.NewYScale 0 5 2 2).bind (fun ys => axes.yLabels ys 1) =
    .ok [⟨.num (axes.NewValue 0 2), ⟨0, 1⟩⟩,
         ⟨.num (axes.NewValue (288/100) 2), ⟨0, 0⟩⟩] := by decide
example : (axes.NewYScale 0 5 2 2).bind (fun ys => axes.yLabels ys 5) =
    .ok [⟨.num (axes.NewValue 0 2), ⟨4, 1⟩⟩,
         ⟨.num (axes.NewValue (288/100) 2), ⟨1, 0⟩⟩] := by decide
example : (axes.NewYScale 0 5 9 2).bind (fun ys => axes.yLabels ys 1) =
    .ok [⟨.num (axes.NewValue 0 2), ⟨0, 8⟩⟩,
         ⟨.num (axes.NewValue (24/10) 2), ⟨0, 4⟩⟩,
         ⟨.num (axes.NewValue (48/10) 2), ⟨0, 0⟩⟩] := by decide
example : (axes.NewYScale 0 5 10 2).bind (fun ys => axes.yLabels ys 1) =
    .ok [⟨.num (axes.NewValue 0 2), ⟨0, 9⟩⟩,
         ⟨.num (axes.NewValue (208/100) 2), ⟨0, 5⟩⟩,
         ⟨.num (axes.NewValue (416/100) 2), ⟨0, 1⟩⟩] := by decide

-- every TestXLabels case
example : (axes.NewXScale 1 1 2).bind (fun xs => axes.xLabels xs ⟨0, 1⟩ []) =
    .ok [⟨.num (axes.NewValue 0 2), ⟨0, 3⟩⟩] := by decide
example : (axes.NewXScale 2 1 2).bind (fun xs => axes.xLabels xs ⟨0, 1⟩ []) =
    .ok [⟨.num (axes.NewValue 0 2), ⟨0, 3⟩⟩] := by decide
example : (axes.NewXScale 2 5 2).bind (fun xs => axes.xLabels xs ⟨0, 1⟩ []) =
    .ok [⟨.num (axes.NewValue 0 2), ⟨0, 3⟩⟩,
         ⟨.num (axes.NewValue 1 2), ⟨4, 3⟩⟩] := by decide
example : (axes.NewXScale 2 5 2).bind (fun xs => axes.xLabels xs ⟨3, 5⟩ []) =
    .ok [⟨.num (axes.NewValue 0 2), ⟨3, 7⟩⟩,
         ⟨.num (axes.NewValue 1 2), ⟨7, 7⟩⟩] := by decide
example : (axes.NewXScale 11 4 2).bind (fun xs => axes.xLabels xs ⟨0, 1⟩ []) =
    .ok [⟨.num (axes.NewValue 0 2), ⟨0, 3⟩⟩] := by decide
example : (axes.NewXScale 100 5 2).bind (fun xs => axes.xLabels xs ⟨0, 1⟩ []) =
    .ok [⟨.num (axes.NewValue 0 2), ⟨0, 3⟩⟩] := by decide
example : (axes.NewXScale 2 6 2).bind (fun xs => axes.xLabels xs ⟨0, 1⟩ []) =
    .ok [⟨.num (axes.NewValue 0 2), ⟨0, 3⟩⟩,
         ⟨.num (axes.NewValue 1 2), ⟨5, 3⟩⟩] := by decide
example : (axes.NewXScale 2 100 2).bind (fun xs => axes.xLabels xs ⟨0, 1⟩ []) =
    .ok [⟨.num (axes.NewValue 0 2), ⟨0, 3⟩⟩,
         ⟨.num (axes.NewValue 1 2), ⟨98, 3⟩⟩] := by decide
example : (axes.NewXScale 4 100 2).bind (fun xs => axes.xLabels xs ⟨0, 1⟩ []) =
    .ok [⟨.num (axes.NewValue 0 2), ⟨0, 3⟩⟩,
         ⟨.num (axes.NewValue 1 2), ⟨31, 3⟩⟩,
         ⟨.num (axes.NewValue 2 2), ⟨62, 3⟩⟩,
         ⟨.num (axes.NewValue 3 2), ⟨94, 3⟩⟩] := by decide
example : (axes.NewXScale 4 100 2).bind
      (fun xs => axes.xLabels xs ⟨0, 1⟩ [(0, "a"), (1, "b"), (2, "c"), (3, "d")]) =
    .ok [⟨axes.NewTextValue "a", ⟨0, 3⟩⟩,
         ⟨axes.NewTextValue "b", ⟨31, 3⟩⟩,
         ⟨axes.NewTextValue "c", ⟨62, 3⟩⟩,
         ⟨axes.NewTextValue "d", ⟨94, 3⟩⟩] := by decide
example : (axes.NewXScale 4 100 2).bind
      (fun xs => axes.xLabels xs ⟨0, 1⟩ [(0, "a"), (3, "d")]) =
    .ok [⟨axes.NewTextValue "a", ⟨0, 3⟩⟩,
         ⟨.num (axes.NewValue 1 2), ⟨31, 3⟩⟩,
         ⟨.num (axes.NewValue 2 2), ⟨62, 3⟩⟩,
         ⟨axes.NewTextValue "d", ⟨94, 3⟩⟩] := by decide
example : (axes.NewXScale 2 6 2).bind
      (fun xs => axes.xLabels xs ⟨0, 1⟩ [(0, "a very very long custom label")]) =
    .ok [] := by decide
example : (axes.NewXScale 100 6 2).bind (fun xs => axes.xLabels xs ⟨0, 1⟩ []) =
    .ok [⟨.num (axes.NewValue 0 2), ⟨0, 3⟩⟩,
         ⟨.num (axes.NewValue 72 2), ⟨4, 3⟩⟩] := by decide
example : (axes.NewXScale 4 100 2).bind (fun xs => xs.ValueToCell 1) = .ok 31 := by decide
example : (axes.NewXScale 4 100 2).bind (fun xs => xs.ValueToCell 3) = .ok 94 := by decide
example : (axes.NewXScale 4 100 2).bind (fun xs => xs.CellLabel 94) =
    .ok (axes.NewValue 3 2) := by decide
example : numbers.RoundToNonZeroPlaces (12345/100000000) 2 = (13/100000, 3) := by decide
example : numbers.RoundToNonZeroPlaces (1234567/1000000) 2 = (124/100, 0) := by decide
example : numbers.RoundToNonZeroPlaces (-(1234567/1000000)) 2 = (-(123/100), 0) := by decide
example : numbers.Round (5/2) = 3 := by decide
example : numbers.Round (-(5/2)) = -3 := by decide
example : numbers.RadiansToDegrees (-7) = -41 := by decide
example : numbers.RadiansToDegrees (-(1/100)) = 359 := by decide
example : numbers.MinMaxInts [2147483648] = (2147483647, 2147483648) := by decide

end S2P
